import Mathlib

/-!
Verification of the asynchronous job orchestration core of the ComfyToGPU
gateway: the RunPod remote-executor client (`src/runpod.ts`) and the local
in-memory job store of the HTTP server (`src/server.ts`).

The development shallowly embeds the relevant TypeScript code:

* JavaScript values occurring in remote responses are modelled by `JVal`;
  property access on `null`/`undefined` throws, which is modelled by
  `Except String`.
* `RunPodService.processOutput` becomes `processOutput`, built from
  `extractImages`, which mirrors the three-way `if`/`else if` shape search
  of the source.
* `RunPodService.buildWorkflow` becomes `buildWorkflow` over an
  association-list model of the ComfyUI workflow graph; the call to
  `Math.random()` is modelled by a draw `k / 2 ^ 53` (with `k < 2 ^ 53`,
  the granularity of IEEE doubles in `[0,1)`) passed in as a parameter, and
  `Math.floor(Math.random() * 1000000000000000)` becomes `randomSeed k`.
* The two poll loops (`executeAsync` and `waitForCompletion`) become the
  fuel-indexed loop functions `asyncLoop` and `waitLoop` over a trace of
  poll steps (elapsed wall-clock time at each check plus the remote status
  response); the cold-start `console.log` is recorded as an explicit signal
  list.
* The `/api/generate` handler's `jobStore` writes become `handlerWrites`
  applied to an association-list `Store`; the ten-minute sweep becomes
  `sweep`.
-/

/-- A JavaScript value as it occurs in RunPod responses.  `vNull` stands for
both `null` and `undefined` (both are falsy and both throw on property
access). -/
inductive JVal where
  | vNull : JVal
  | vStr : String → JVal
  | vArr : List JVal → JVal
  | vObj : List (String × JVal) → JVal

/-- First-match lookup in an association list (JS object property read). -/
def lookupA {α : Type} : List (String × α) → String → Option α
  | [], _ => none
  | p :: rest, k => if p.1 = k then some p.2 else lookupA rest k

/-- Key-membership test for an association list. -/
def hasA {α : Type} : List (String × α) → String → Bool
  | [], _ => false
  | p :: rest, k => if p.1 = k then true else hasA rest k

/-- JS property assignment `o[k] = v`: replace the binding if the key is
present, otherwise append it. -/
def setA {α : Type} (l : List (String × α)) (k : String) (v : α) :
    List (String × α) :=
  if hasA l k then l.map (fun p => if p.1 = k then (k, v) else p)
  else l ++ [(k, v)]

/-- Update the value bound to `k` in place, leaving every other entry
untouched (no-op when the key is absent). -/
def updA {α : Type} : List (String × α) → String → (α → α) → List (String × α)
  | [], _, _ => []
  | p :: rest, k, f =>
      (if p.1 = k then (p.1, f p.2) else p) :: updA rest k f

/-- JavaScript truthiness of a `JVal`: `null`/`undefined` and the empty
string are falsy; arrays, objects and non-empty strings are truthy. -/
def truthy : JVal → Bool
  | .vNull => false
  | .vStr s => !decide (s = "")
  | .vArr _ => true
  | .vObj _ => true

/-- Property read `v.k` as executed by JavaScript: throws a `TypeError` on
`null`/`undefined`, yields `undefined` (`none`) on primitives and missing
keys, and looks the key up on objects. -/
def getFieldE (v : JVal) (k : String) : Except String (Option JVal) :=
  match v with
  | .vNull => .error ("Cannot read properties of null (reading " ++ k ++ ")")
  | .vObj fs => .ok (lookupA fs k)
  | _ => .ok none

/-- One element of the flat `data.output.images` array
(`runpod.ts:378-385`): a raw string is pushed as is; otherwise the element
is pushed exactly when its `data` property is truthy. -/
def flatImgStep (img : JVal) : Except String (List JVal) :=
  match img with
  | .vStr s => .ok [.vStr s]
  | _ => do
      let d ← getFieldE img "data"
      if truthy (d.getD .vNull) then pure [d.getD .vNull] else pure []

/-- `forEach` over the flat `images` array, concatenating in order. -/
def flatList : List JVal → Except String (List JVal)
  | [] => .ok []
  | img :: rest => do
      let h ← flatImgStep img
      let t ← flatList rest
      pure (h ++ t)

/-- One element of a per-node `images` array (`runpod.ts:401-411`): raw
strings are pushed; otherwise `data`, then `image || base64`, is pushed when
truthy. -/
def nodeImgStep (img : JVal) : Except String (List JVal) :=
  match img with
  | .vStr s => .ok [.vStr s]
  | _ => do
      let d ← getFieldE img "data"
      if truthy (d.getD .vNull) then pure [d.getD .vNull]
      else do
        let i ← getFieldE img "image"
        let b ← getFieldE img "base64"
        let v := if truthy (i.getD .vNull) then i.getD .vNull else b.getD .vNull
        if truthy v then pure [v] else pure []

/-- `forEach` over a per-node `images` array, concatenating in order. -/
def nodeImgList : List JVal → Except String (List JVal)
  | [] => .ok []
  | img :: rest => do
      let h ← nodeImgStep img
      let t ← nodeImgList rest
      pure (h ++ t)

/-- One node of the per-node output mapping (`runpod.ts:396-412`): reading
`nodeOutput.images` throws on a `null` node value; images are extracted only
when that property is a (truthy) array. -/
def nodeStep (nv : JVal) : Except String (List JVal) := do
  match ← getFieldE nv "images" with
  | some (.vArr imgs) => nodeImgList imgs
  | _ => pure []

/-- `Object.keys(data.output).forEach` over an object: visit every value. -/
def nodeList : List (String × JVal) → Except String (List JVal)
  | [] => .ok []
  | (_, nv) :: rest => do
      let h ← nodeStep nv
      let t ← nodeList rest
      pure (h ++ t)

/-- `Object.keys` iteration when `data.output` is itself an array (arrays
have `typeof _ === "object"` in JS, so the per-node branch runs over the
elements). -/
def nodeListArr : List JVal → Except String (List JVal)
  | [] => .ok []
  | nv :: rest => do
      let h ← nodeStep nv
      let t ← nodeListArr rest
      pure (h ++ t)

/-- The image search of `RunPodService.processOutput`
(`runpod.ts:370-415`): skip falsy output; else try, in order,
(1) `output.images` being an array, (2) `output.image` being truthy,
(3) `typeof output === "object"`, iterating all node values.  Only the
first matching branch contributes images. -/
def extractImages (output : Option JVal) : Except String (List JVal) :=
  match output with
  | none => .ok []
  | some out =>
      if truthy out then
        match out with
        | .vObj fs =>
            match lookupA fs "images" with
            | some (.vArr imgs) => flatList imgs
            | _ =>
                match lookupA fs "image" with
                | some v => if truthy v then .ok [v] else nodeList fs
                | none => nodeList fs
        | .vArr xs => nodeListArr xs
        | _ => .ok []
      else .ok []

/-- The part of a RunPod response that `processOutput` reads. -/
structure RemoteData where
  id : Option String
  status : Option String
  output : Option JVal

/-- The result record returned by `RunPodService` methods
(`GenerateResult` in `runpod.ts`). -/
structure GenerateResult where
  success : Bool
  jobId : Option String
  message : String
  images : List JVal
  status : Option String

/-- `RunPodService.processOutput` (`runpod.ts:359-436`): extract images
inside a `try`; on success return a fixed success message, on an exception
return `success = false` with no images and the exception message. -/
def processOutput (d : RemoteData) : GenerateResult :=
  match extractImages d.output with
  | .ok imgs =>
      { success := true
        jobId := d.id
        message := "Image generation completed successfully"
        images := imgs
        status := d.status }
  | .error e =>
      { success := false
        jobId := d.id
        message := "Failed to process output: " ++ e
        images := []
        status := none }

/-- Whether an `Except` computation succeeded. -/
def isOkE {ε α : Type} : Except ε α → Bool
  | .ok _ => true
  | .error _ => false

/-- A value stored in a workflow node's `inputs` object. -/
inductive FVal where
  | s : String → FVal
  | i : ℤ → FVal
  | q : ℚ → FVal
  | arr : List FVal → FVal

/-- JS truthiness of a node-input value (`if (workflow[id].inputs.filename)`
in `buildWorkflow` is a truthiness test). -/
def ftruthy : FVal → Bool
  | .s v => !decide (v = "")
  | .i v => !decide (v = 0)
  | .q v => !decide (v = 0)
  | .arr _ => true

/-- A ComfyUI workflow node: a class name plus an optional `inputs` object
(association list of field name to value). -/
structure Node where
  class_type : String
  inputs : Option (List (String × FVal))

/-- A ComfyUI workflow: a JS object mapping node identifiers to nodes. -/
abbrev Workflow := List (String × Node)

/-- Prompt injection on one node (`runpod.ts:290-299`, nodes `111` and
`110`): when the node has an `inputs` object, set both its `text` and
`prompt` fields to the given text; otherwise leave the node alone. -/
def patchPromptNode (txt : String) (n : Node) : Node :=
  match n.inputs with
  | some fs =>
      { n with inputs := some (setA (setA fs "text" (.s txt)) "prompt" (.s txt)) }
  | none => n

/-- Loader-node normalization (`runpod.ts:303-317`, nodes `37`, `38`,
`39`): when the `inputs.filename` field is truthy, copy it to the engine's
API field name and optionally set one extra fixed field. -/
def patchLoaderNode (apiField : String) (extra : Option (String × FVal))
    (n : Node) : Node :=
  match n.inputs with
  | some fs =>
      match lookupA fs "filename" with
      | some fv =>
          if ftruthy fv then
            let fs1 := setA fs apiField fv
            let fs2 := match extra with
              | some (k, v) => setA fs1 k v
              | none => fs1
            { n with inputs := some fs2 }
          else n
      | none => n
  | none => n

/-- Value-field rewrite (`runpod.ts:323-330`, nodes `66` and `75`): when
`inputs.value` is present (an `!== undefined` test, not truthiness), copy it
to the target field. -/
def patchValueNode (tgt : String) (n : Node) : Node :=
  match n.inputs with
  | some fs =>
      match lookupA fs "value" with
      | some v => { n with inputs := some (setA fs tgt v) }
      | none => n
  | none => n

/-- Seed injection (`runpod.ts:333-336`, node `3`): when the node has an
`inputs` object, set its `seed` field. -/
def patchSeedNode (seed : ℤ) (n : Node) : Node :=
  match n.inputs with
  | some fs => { n with inputs := some (setA fs "seed" (.i seed)) }
  | none => n

/-- `Math.floor(Math.random() * 1000000000000000)`: a `Math.random` draw is
a double `k / 2 ^ 53` with `k < 2 ^ 53`, so the floored product is the
integer `k * 10 ^ 15 / 2 ^ 53` (exact rational arithmetic). -/
def randomSeed (k : ℕ) : ℤ := ((k * 10 ^ 15 / 2 ^ 53 : ℕ) : ℤ)

/-- The node identifiers that `buildWorkflow` targets. -/
def targetIds : List String := ["111", "110", "37", "38", "39", "66", "75", "3"]

/-- `RunPodService.buildWorkflow` (`runpod.ts:274-354`) after the template
file has been loaded and parsed into `w`; `r` is the numerator of the
`Math.random` draw used for the seed.  Every patch is guarded on the node
(and field) being present, so a missing node leaves the workflow
unchanged. -/
def buildWorkflow (w : Workflow) (prompt : String) (r : ℕ) : Workflow :=
  updA
    (updA
      (updA
        (updA
          (updA
            (updA
              (updA (updA w "111" (patchPromptNode prompt)) "110"
                (patchPromptNode ""))
              "37" (patchLoaderNode "unet_name" (some ("weight_dtype", .s "default"))))
            "38" (patchLoaderNode "clip_name" (some ("type", .s "qwen_image"))))
          "39" (patchLoaderNode "vae_name" none))
        "66" (patchValueNode "shift"))
      "75" (patchValueNode "strength"))
    "3" (patchSeedNode (randomSeed r))

/-- The negative-prompt injection step of `buildWorkflow` in isolation
(`runpod.ts:296-299`). -/
def negPromptInject (w : Workflow) : Workflow :=
  updA w "110" (patchPromptNode "")

/-- The seed stored on the designated sampler node `3`. -/
def seedOf (w : Workflow) : Option FVal :=
  (lookupA w "3").bind fun n => n.inputs.bind fun fs => lookupA fs "seed"

/-- Remote job status as reported by the RunPod API (`RunPodJob` in
`runpod.ts`). -/
inductive RStatus where
  | IN_QUEUE | IN_PROGRESS | COMPLETED | FAILED | CANCELLED | TIMED_OUT
deriving DecidableEq

/-- `status.toLowerCase()` as used in `waitForCompletion`'s error message. -/
def statusLower : RStatus → String
  | .IN_QUEUE => "in_queue"
  | .IN_PROGRESS => "in_progress"
  | .COMPLETED => "completed"
  | .FAILED => "failed"
  | .CANCELLED => "cancelled"
  | .TIMED_OUT => "timed_out"

/-- A RunPod status response (`{id, status, output?, error?}`). -/
structure RJob where
  id : Option String
  status : RStatus
  output : Option JVal
  error : Option String

/-- The wire representation of a remote status. -/
def statusUpper : RStatus → String
  | .IN_QUEUE => "IN_QUEUE"
  | .IN_PROGRESS => "IN_PROGRESS"
  | .COMPLETED => "COMPLETED"
  | .FAILED => "FAILED"
  | .CANCELLED => "CANCELLED"
  | .TIMED_OUT => "TIMED_OUT"

/-- `x || "Unknown error"` on the remote error message (empty strings are
falsy in JS and also fall back to the default). -/
def jsOr : Option String → String
  | some s => if s = "" then "Unknown error" else s
  | none => "Unknown error"

/-- View a status response as the data handed to `processOutput`. -/
def toRemoteData (j : RJob) : RemoteData :=
  { id := j.id, status := some (statusUpper j.status), output := j.output }

/-- One iteration's observations in the `executeAsync` poll loop:
`Date.now() - startTime` at the `while` guard, the `getJobStatus` response,
and `Date.now() - startTime` at the cold-start check. -/
structure PollStep where
  elapsedCheck : Nat
  job : RJob
  elapsedCold : Nat

/-- One iteration's observations in the `waitForCompletion` poll loop
(`Date.now()` is read once per iteration there). -/
structure WaitStep where
  elapsedCheck : Nat
  job : RJob

/-- Outcome of the `executeAsync` poll loop (`runpod.ts:173-195`). -/
inductive LoopResult where
  | ok : RJob → LoopResult
  | jobFailed : String → LoopResult
  | timeout : LoopResult
  | diverged : LoopResult

/-- Outcome of the `waitForCompletion` poll loop (`runpod.ts:233-248`). -/
inductive WaitResult where
  | ok : RJob → WaitResult
  | remoteFailed : RStatus → String → WaitResult
  | timeout : WaitResult
  | diverged : WaitResult

/-- The `executeAsync` poll loop (`runpod.ts:173-195`), iterating from poll
index `k` with the given fuel.  It returns the loop outcome, the index one
past the last poll issued (so, started from `0`, the total number of
`getJobStatus` requests), and the list of poll indices at which the
cold-start warning was logged.  The loop returns on `COMPLETED`, throws on
`FAILED`, and otherwise (including `CANCELLED` and `TIMED_OUT`) logs, checks
the cold-start condition (`IN_QUEUE` for strictly more than 15000 ms) and
polls again. -/
def asyncLoop (maxWait : Nat) (tr : Nat → PollStep) :
    Nat → Nat → LoopResult × Nat × List Nat
  | 0, k => (.diverged, k, [])
  | fuel + 1, k =>
      let s := tr k
      if s.elapsedCheck < maxWait then
        if s.job.status = .COMPLETED then (.ok s.job, k + 1, [])
        else if s.job.status = .FAILED then (.jobFailed (jsOr s.job.error), k + 1, [])
        else
          let rest := asyncLoop maxWait tr fuel (k + 1)
          (rest.1, rest.2.1,
            (if s.job.status = .IN_QUEUE ∧ 15000 < s.elapsedCold then [k] else [])
              ++ rest.2.2)
      else (.timeout, k, [])

/-- The `waitForCompletion` poll loop (`runpod.ts:233-246`): returns on
`COMPLETED`, throws on `FAILED`, `CANCELLED`, or `TIMED_OUT`, and otherwise
polls again.  The third component records cold-start signals; this loop
contains no cold-start check, so no index is ever added to it. -/
def waitLoop (maxWait : Nat) (tr : Nat → WaitStep) :
    Nat → Nat → WaitResult × Nat × List Nat
  | 0, k => (.diverged, k, [])
  | fuel + 1, k =>
      let s := tr k
      if s.elapsedCheck < maxWait then
        if s.job.status = .COMPLETED then (.ok s.job, k + 1, [])
        else if s.job.status = .FAILED ∨ s.job.status = .CANCELLED ∨
            s.job.status = .TIMED_OUT then
          (.remoteFailed s.job.status (jsOr s.job.error), k + 1, [])
        else waitLoop maxWait tr fuel (k + 1)
      else (.timeout, k, [])

/-- The wall-clock budget of the `executeAsync` poll loop (10 minutes). -/
def asyncMaxWaitMs : Nat := 10 * 60 * 1000

/-- `RunPodService.executeAsync` (`runpod.ts:137-204`) after submission:
run the poll loop and wrap every thrown error in the outer `catch` as
`RunPod execution failed: ...`.  `submitR` is the result of the `/run`
POST (the remote job identifier, or a transport error message). -/
def executeAsyncModel (submitR : Except String String) (tr : Nat → PollStep)
    (fuel : Nat) : Except String GenerateResult :=
  match submitR with
  | .error m => .error ("RunPod execution failed: " ++ m)
  | .ok _ =>
      match (asyncLoop asyncMaxWaitMs tr fuel 0).1 with
      | .ok j => .ok (processOutput (toRemoteData j))
      | .jobFailed m => .error ("RunPod execution failed: " ++ ("Job failed: " ++ m))
      | .timeout =>
          .error ("RunPod execution failed: " ++ "Job timed out waiting for completion")
      | .diverged => .error "model: out of fuel"

/-- `RunPodService.waitForCompletion` (`runpod.ts:229-249`): no outer
`catch`, errors propagate with the message built at the throw site. -/
def waitForCompletionModel (tr : Nat → WaitStep) (maxWait fuel : Nat) :
    Except String GenerateResult :=
  match (waitLoop maxWait tr fuel 0).1 with
  | .ok j => .ok (processOutput (toRemoteData j))
  | .remoteFailed st m => .error ("Job " ++ statusLower st ++ ": " ++ m)
  | .timeout => .error "Job timed out waiting for completion"
  | .diverged => .error "model: out of fuel"

/-- The four statuses the spec calls terminal. -/
def isTerminal (st : RStatus) : Bool :=
  st = .COMPLETED || st = .FAILED || st = .CANCELLED || st = .TIMED_OUT

/-- The statuses on which `executeAsync`'s loop actually stops. -/
def isAsyncStop (st : RStatus) : Bool :=
  st = .COMPLETED || st = .FAILED

/-- Status of a local job record (`JobRecord` in `server.ts`). -/
inductive JStatus where
  | pending | processing | completed | failed
deriving DecidableEq

/-- The result object written on completion (`server.ts:296-302`). -/
structure StoredResult where
  success : Bool
  jobId : Option String
  runpodJobId : Option String
  message : String
  images : List JVal

/-- A local job record (`server.ts:82-87`). -/
structure JobRecord where
  status : JStatus
  result : Option StoredResult
  error : Option String
  startedAt : Nat

/-- The in-memory `jobStore` map. -/
abbrev Store := List (String × JobRecord)

/-- `jobStore.get`. -/
def storeGet (s : Store) (id : String) : Option JobRecord := lookupA s id

/-- `jobStore.set`. -/
def storeSet (s : Store) (id : String) (r : JobRecord) : Store := setA s id r

/-- The sweep interval (`server.ts:100`): every 10 minutes. -/
def sweepIntervalMs : Nat := 10 * 60 * 1000

/-- The retention window (`server.ts:93`): 1 hour. -/
def retentionMs : Nat := 60 * 60 * 1000

/-- The periodic sweep (`server.ts:92-100`): delete every record whose
`startedAt` is strictly older than one hour before `now`. -/
def sweep (s : Store) (now : Nat) : Store :=
  s.filter fun p => !decide (p.2.startedAt < now - retentionMs)

/-- The stored result built from a successful `execute` result
(`server.ts:296-302`). -/
def mkStored (r : GenerateResult) : StoredResult :=
  { success := true
    jobId := r.jobId
    runpodJobId := r.jobId
    message := "Image generation completed!"
    images := r.images }

/-- The sequence of `jobStore.set` writes the `/api/generate` handler
performs for one job (`server.ts:268-271`, `287-290`, `294-304`,
`315-319`): a `pending` record synchronously at submission time `tS`, then
from the background task a `processing` record at `tP` and finally a
terminal record at `tE` — `completed` with the result when `execute`
succeeded, `failed` with the error message when it threw.  Each write
replaces the whole record and stamps `startedAt` with its own time. -/
def handlerWrites (tS tP tE : Nat) (o : Except String GenerateResult) :
    List JobRecord :=
  [ { status := .pending, result := none, error := none, startedAt := tS },
    { status := .processing, result := none, error := none, startedAt := tP },
    match o with
    | .ok r => { status := .completed, result := some (mkStored r), error := none,
                 startedAt := tE }
    | .error m => { status := .failed, result := none, error := some m,
                    startedAt := tE } ]

/-- Apply a sequence of writes for one job id to the store. -/
def applyWrites (s : Store) (id : String) (ws : List JobRecord) : Store :=
  ws.foldl (fun s r => storeSet s id r) s

/-- The status transitions the spec allows a caller to observe. -/
def allowedStep (a b : JStatus) : Prop :=
  (a = .pending ∧ b = .processing) ∨
  (a = .processing ∧ (b = .completed ∨ b = .failed))

/-! ### Concrete example traces, workflows and stores -/

/-- A poll trace whose first response is the terminal status `CANCELLED`
and whose later responses are `COMPLETED`, all well inside the wall-clock
budget. -/
def cancelTrace : Nat → PollStep := fun k =>
  if k = 0 then
    { elapsedCheck := 0
      job := { id := some "job-1", status := .CANCELLED, output := none,
               error := some "cancelled by user" }
      elapsedCold := 0 }
  else
    { elapsedCheck := 5000
      job := { id := some "job-1", status := .COMPLETED,
               output := some (.vObj [("images", .vArr [.vStr "aGVsbG8="])]),
               error := none }
      elapsedCold := 5000 }

/-- A constant `waitForCompletion` trace that reports `CANCELLED` at once. -/
def waitTraceC : Nat → WaitStep := fun _ =>
  { elapsedCheck := 1000
    job := { id := some "job-1", status := .CANCELLED, output := none,
             error := some "stopped" } }

/-- A constant `executeAsync` trace that reports `FAILED` at once. -/
def asyncTraceF : Nat → PollStep := fun _ =>
  { elapsedCheck := 1000
    job := { id := some "job-1", status := .FAILED, output := none,
             error := some "OOM" }
    elapsedCold := 1000 }

/-- A `waitForCompletion` trace that observes `IN_QUEUE` 20 seconds after
submission and then completes. -/
def waitQueueTrace : Nat → WaitStep := fun k =>
  if k = 0 then
    { elapsedCheck := 20000
      job := { id := some "job-1", status := .IN_QUEUE, output := none,
               error := none } }
  else
    { elapsedCheck := 25000
      job := { id := some "job-1", status := .COMPLETED, output := none,
               error := none } }

/-- A constant `executeAsync` trace whose job sits in the queue past the
15-second cold-start threshold. -/
def queueColdTrace : Nat → PollStep := fun _ =>
  { elapsedCheck := 1000
    job := { id := some "job-1", status := .IN_QUEUE, output := none,
             error := none }
    elapsedCold := 16000 }

/-- An `executeAsync` trace whose elapsed time exceeds the budget from the
start, so the loop exits with a timeout before any poll. -/
def timeoutTrace : Nat → PollStep := fun _ =>
  { elapsedCheck := 700000
    job := { id := some "job-1", status := .IN_QUEUE, output := none,
             error := none }
    elapsedCold := 700000 }

/-- A small concrete workflow template with the designated sampler node
`3`, both prompt nodes `110` and `111`, and an untargeted node `7`. -/
def exWorkflow : Workflow :=
  [("3", { class_type := "KSampler",
           inputs := some [("seed", .i 42), ("steps", .i 20)] }),
   ("7", { class_type := "VAEDecode", inputs := some [("samples", .s "x")] }),
   ("110", { class_type := "CLIPTextEncode",
             inputs := some [("text", .s "old"), ("prompt", .s "old")] }),
   ("111", { class_type := "CLIPTextEncode",
             inputs := some [("text", .s "old"), ("prompt", .s "old")] })]

/-! ### Association-list lemmas -/

theorem lookupA_map_upd {α : Type} (l : List (String × α)) (k : String) (v : α) :
    lookupA (l.map (fun p => if p.1 = k then (k, v) else p)) k =
      if hasA l k then some v else none := by
  induction l with
  | nil => rfl
  | cons p rest ih =>
      by_cases hp : p.1 = k
      · simp [lookupA, hasA, hp]
      · simp [lookupA, hasA, hp, ih]

theorem lookupA_map_upd_ne {α : Type} (l : List (String × α)) (k k' : String)
    (v : α) (h : k' ≠ k) :
    lookupA (l.map (fun p => if p.1 = k then (k, v) else p)) k' = lookupA l k' := by
  induction l with
  | nil => rfl
  | cons p rest ih =>
      by_cases hp : p.1 = k
      · simp [lookupA, hp, Ne.symm h, ih]
      · by_cases hp' : p.1 = k'
        · simp [lookupA, hp, hp', h]
        · simp [lookupA, hp, hp', ih]

theorem lookupA_append_single {α : Type} (l : List (String × α)) (k : String)
    (v : α) (h : hasA l k = false) :
    lookupA (l ++ [(k, v)]) k = some v := by
  induction l with
  | nil => simp [lookupA]
  | cons p rest ih =>
      by_cases hp : p.1 = k
      · simp [hasA, hp] at h
      · simp [hasA, hp] at h
        simp [lookupA, hp, ih h]

theorem lookupA_append_single_ne {α : Type} (l : List (String × α))
    (k k' : String) (v : α) (h : k' ≠ k) :
    lookupA (l ++ [(k, v)]) k' = lookupA l k' := by
  induction l with
  | nil => simp [lookupA, Ne.symm h]
  | cons p rest ih =>
      by_cases hp : p.1 = k'
      · simp [lookupA, hp]
      · simp [lookupA, hp, ih]

theorem lookupA_setA_self {α : Type} (l : List (String × α)) (k : String) (v : α) :
    lookupA (setA l k v) k = some v := by
  unfold setA
  by_cases h : hasA l k
  · simp [h, lookupA_map_upd]
  · simp only [h, Bool.false_eq_true, if_false]
    exact lookupA_append_single l k v (by simpa using h)

theorem lookupA_setA_ne {α : Type} (l : List (String × α)) (k k' : String)
    (v : α) (h : k' ≠ k) :
    lookupA (setA l k v) k' = lookupA l k' := by
  unfold setA
  by_cases hh : hasA l k
  · simp [hh, lookupA_map_upd_ne l k k' v h]
  · simp only [hh, Bool.false_eq_true, if_false]
    exact lookupA_append_single_ne l k k' v h

theorem hasA_map_upd {α : Type} (l : List (String × α)) (k k' : String) (v : α) :
    hasA (l.map (fun p => if p.1 = k then (k, v) else p)) k' = hasA l k' := by
  induction l with
  | nil => rfl
  | cons p rest ih =>
      by_cases hp : p.1 = k
      · by_cases hk : k = k'
        · simp [hasA, hp, hk]
        · simp [hasA, hp, hk, fun hh : p.1 = k' => hk (hp ▸ hh), ih]
      · simp [hasA, hp, ih]

theorem hasA_append {α : Type} (l l' : List (String × α)) (k : String) :
    hasA (l ++ l') k = (hasA l k || hasA l' k) := by
  induction l with
  | nil => rfl
  | cons p rest ih =>
      by_cases hp : p.1 = k
      · simp [hasA, hp]
      · simp [hasA, hp, ih]

theorem hasA_setA_self {α : Type} (l : List (String × α)) (k : String) (v : α) :
    hasA (setA l k v) k = true := by
  unfold setA
  by_cases h : hasA l k
  · simp [h, hasA_map_upd]
  · rw [if_neg (by simpa using h), hasA_append]
    simp [hasA]

theorem hasA_setA_of {α : Type} (l : List (String × α)) (k k' : String) (v : α)
    (h : hasA l k' = true) : hasA (setA l k v) k' = true := by
  unfold setA
  by_cases hh : hasA l k
  · simp [hh, hasA_map_upd, h]
  · rw [if_neg (by simpa using hh), hasA_append, h, Bool.true_or]

theorem hasA_false_not_mem {α : Type} (l : List (String × α)) (k : String)
    (h : hasA l k = false) : ∀ p ∈ l, p.1 ≠ k := by
  induction l with
  | nil => intro p hp; cases hp
  | cons q rest ih =>
      intro p hp
      by_cases hq : q.1 = k
      · simp [hasA, hq] at h
      · simp [hasA, hq] at h
        rcases List.mem_cons.1 hp with rfl | hp'
        · exact hq
        · exact ih h p hp'

theorem mem_setA_of_ne {α : Type} (l : List (String × α)) (k : String) (v : α)
    (p : String × α) (hp : p ∈ setA l k v) (hne : p.1 ≠ k) : p ∈ l := by
  unfold setA at hp
  by_cases h : hasA l k
  · rw [if_pos h, List.mem_map] at hp
    rcases hp with ⟨q, hq, hqe⟩
    by_cases hq1 : q.1 = k
    · rw [if_pos hq1] at hqe
      exact absurd (hqe ▸ rfl : p.1 = k) hne
    · rw [if_neg hq1] at hqe
      exact hqe ▸ hq
  · rw [if_neg h, List.mem_append, List.mem_singleton] at hp
    rcases hp with hp' | hpe
    · exact hp'
    · exact absurd (by rw [hpe] : p.1 = k) hne

theorem mem_setA_self {α : Type} (l : List (String × α)) (k : String) (v : α)
    (p : String × α) (hp : p ∈ setA l k v) (hk : p.1 = k) : p.2 = v := by
  unfold setA at hp
  by_cases h : hasA l k
  · rw [if_pos h, List.mem_map] at hp
    rcases hp with ⟨q, hq, hqe⟩
    by_cases hq1 : q.1 = k
    · rw [if_pos hq1] at hqe
      rw [← hqe]
    · rw [if_neg hq1] at hqe
      exact absurd (hqe ▸ hk) hq1
  · rw [if_neg h, List.mem_append, List.mem_singleton] at hp
    rcases hp with hp' | hpe
    · exact absurd hk (hasA_false_not_mem l k (by simpa using h) p hp')
    · rw [hpe]

theorem map_upd_eq_self {α : Type} (l : List (String × α)) (k : String) (v : α)
    (hv : ∀ p ∈ l, p.1 = k → p.2 = v) :
    l.map (fun p => if p.1 = k then (k, v) else p) = l := by
  induction l with
  | nil => rfl
  | cons p rest ih =>
      rcases p with ⟨a, b⟩
      by_cases hp : a = k
      · have hb : b = v := hv (a, b) (List.mem_cons_self _ _) hp
        simp [hp, hb, ih fun q hq hqk => hv q (List.mem_cons_of_mem _ hq) hqk]
      · simp only [List.map_cons, if_neg hp]
        rw [ih fun q hq hqk => hv q (List.mem_cons_of_mem _ hq) hqk]

theorem setA_eq_self {α : Type} (l : List (String × α)) (k : String) (v : α)
    (hk : hasA l k = true) (hv : ∀ p ∈ l, p.1 = k → p.2 = v) :
    setA l k v = l := by
  unfold setA
  rw [if_pos hk]
  exact map_upd_eq_self l k v hv

theorem lookupA_updA_self {α : Type} (l : List (String × α)) (k : String)
    (f : α → α) : lookupA (updA l k f) k = (lookupA l k).map f := by
  induction l with
  | nil => rfl
  | cons p rest ih =>
      by_cases hp : p.1 = k
      · simp [updA, lookupA, hp]
      · simp [updA, lookupA, hp, ih]

theorem lookupA_updA_ne {α : Type} (l : List (String × α)) (k k' : String)
    (f : α → α) (h : k' ≠ k) :
    lookupA (updA l k f) k' = lookupA l k' := by
  induction l with
  | nil => rfl
  | cons p rest ih =>
      by_cases hp : p.1 = k
      · simp [updA, lookupA, hp, Ne.symm h, ih]
      · by_cases hp' : p.1 = k'
        · simp [updA, lookupA, hp, hp', h]
        · simp [updA, lookupA, hp, hp', ih]

theorem updA_eq_self {α : Type} (l : List (String × α)) (k : String)
    (f : α → α) (h : lookupA l k = none) : updA l k f = l := by
  induction l with
  | nil => rfl
  | cons p rest ih =>
      by_cases hp : p.1 = k
      · simp [lookupA, hp] at h
      · simp [lookupA, hp] at h
        simp [updA, hp, ih h]

theorem lookupA_updA_none {α : Type} (l : List (String × α)) (k k' : String)
    (f : α → α) (h : lookupA l k' = none) :
    lookupA (updA l k f) k' = none := by
  by_cases hk : k' = k
  · subst hk
    rw [lookupA_updA_self, h]
    rfl
  · rw [lookupA_updA_ne l k k' f hk]
    exact h

theorem map_fst_updA {α : Type} (l : List (String × α)) (k : String)
    (f : α → α) : (updA l k f).map Prod.fst = l.map Prod.fst := by
  induction l with
  | nil => rfl
  | cons p rest ih =>
      by_cases hp : p.1 = k
      · simp [updA, hp, ih]
      · simp [updA, hp, ih]

theorem updA_updA_self {α : Type} (l : List (String × α)) (k : String)
    (f : α → α) (hf : ∀ a, f (f a) = f a) :
    updA (updA l k f) k f = updA l k f := by
  induction l with
  | nil => rfl
  | cons p rest ih =>
      by_cases hp : p.1 = k
      · simp [updA, hp, hf, ih]
      · simp [updA, hp, ih]

theorem lookupA_eq_none_of_not_mem {α : Type} (l : List (String × α))
    (k : String) (h : k ∉ l.map Prod.fst) : lookupA l k = none := by
  induction l with
  | nil => rfl
  | cons p rest ih =>
      simp only [List.map_cons, List.mem_cons, not_or] at h
      have : p.1 ≠ k := fun hh => h.1 hh.symm
      simp [lookupA, this, ih h.2]

theorem lookupA_filter_none {α : Type} (l : List (String × α))
    (pr : String × α → Bool) (k : String) (h : lookupA l k = none) :
    lookupA (l.filter pr) k = none := by
  induction l with
  | nil => rfl
  | cons p rest ih =>
      by_cases hp : p.1 = k
      · simp [lookupA, hp] at h
      · simp [lookupA, hp] at h
        by_cases hpr : pr p
        · simp [List.filter_cons, hpr, lookupA, hp, ih h]
        · simp [List.filter_cons, hpr, ih h]

/-! ### Poll-loop lemmas -/

theorem waitLoop_signals (maxWait : Nat) (tr : Nat → WaitStep) :
    ∀ fuel j, (waitLoop maxWait tr fuel j).2.2 = [] := by
  intro fuel
  induction fuel with
  | zero => intro j; rfl
  | succ fuel ih =>
      intro j
      simp only [waitLoop]
      by_cases h1 : (tr j).elapsedCheck < maxWait
      · rw [if_pos h1]
        by_cases h2 : (tr j).job.status = .COMPLETED
        · rw [if_pos h2]
        · rw [if_neg h2]
          by_cases h3 : (tr j).job.status = .FAILED ∨ (tr j).job.status = .CANCELLED ∨
              (tr j).job.status = .TIMED_OUT
          · rw [if_pos h3]
          · rw [if_neg h3]
            exact ih (j + 1)
      · rw [if_neg h1]

theorem waitLoop_stop (maxWait : Nat) (tr : Nat → WaitStep) :
    ∀ fuel j k, j ≤ k → k < j + fuel →
    (∀ i, j ≤ i → i ≤ k → (tr i).elapsedCheck < maxWait) →
    (∀ i, j ≤ i → i < k → isTerminal (tr i).job.status = false) →
    isTerminal (tr k).job.status = true →
    waitLoop maxWait tr fuel j =
      (if (tr k).job.status = .COMPLETED then .ok (tr k).job
       else .remoteFailed (tr k).job.status (jsOr (tr k).job.error), k + 1, []) := by
  intro fuel
  induction fuel with
  | zero => intro j k hjk hk; omega
  | succ fuel ih =>
      intro j k hjk hk hcheck hnt hterm
      simp only [waitLoop]
      rw [if_pos (hcheck j le_rfl hjk)]
      rcases Nat.lt_or_ge j k with hlt | hge
      · have hj := hnt j le_rfl hlt
        simp only [isTerminal, Bool.or_eq_false_iff, decide_eq_false_iff_not] at hj
        rw [if_neg hj.1.1.1, if_neg (by
          rintro (h | h | h)
          · exact hj.1.1.2 h
          · exact hj.1.2 h
          · exact hj.2 h)]
        exact ih (j + 1) k hlt (by omega)
          (fun i h1 h2 => hcheck i (by omega) h2)
          (fun i h1 h2 => hnt i (by omega) h2) hterm
      · have hjk' : j = k := Nat.le_antisymm hjk hge
        subst hjk'
        simp only [isTerminal, Bool.or_eq_true_iff, decide_eq_true_eq] at hterm
        rcases hterm with ((hC | hF) | hX) | hT
        · rw [hC]; simp
        · rw [hF]; simp
        · rw [hX]; simp
        · rw [hT]; simp

theorem asyncLoop_stop (maxWait : Nat) (tr : Nat → PollStep) :
    ∀ fuel j k, j ≤ k → k < j + fuel →
    (∀ i, j ≤ i → i ≤ k → (tr i).elapsedCheck < maxWait) →
    (∀ i, j ≤ i → i < k → isAsyncStop (tr i).job.status = false) →
    isAsyncStop (tr k).job.status = true →
    (asyncLoop maxWait tr fuel j).1 =
      (if (tr k).job.status = .COMPLETED then .ok (tr k).job
       else .jobFailed (jsOr (tr k).job.error)) ∧
    (asyncLoop maxWait tr fuel j).2.1 = k + 1 := by
  intro fuel
  induction fuel with
  | zero => intro j k hjk hk; omega
  | succ fuel ih =>
      intro j k hjk hk hcheck hnt hterm
      simp only [asyncLoop]
      rw [if_pos (hcheck j le_rfl hjk)]
      rcases Nat.lt_or_ge j k with hlt | hge
      · have hj := hnt j le_rfl hlt
        simp only [isAsyncStop, Bool.or_eq_false_iff, decide_eq_false_iff_not] at hj
        rw [if_neg hj.1, if_neg hj.2]
        exact ih (j + 1) k hlt (by omega)
          (fun i h1 h2 => hcheck i (by omega) h2)
          (fun i h1 h2 => hnt i (by omega) h2) hterm
      · have hjk' : j = k := Nat.le_antisymm hjk hge
        subst hjk'
        simp only [isAsyncStop, Bool.or_eq_true_iff, decide_eq_true_eq] at hterm
        rcases hterm with hC | hF
        · rw [hC]; simp
        · rw [hF]; simp

theorem asyncLoop_cold (maxWait : Nat) (tr : Nat → PollStep) :
    ∀ fuel j k, j ≤ k → k < j + fuel →
    (∀ i, j ≤ i → i ≤ k → (tr i).elapsedCheck < maxWait) →
    (∀ i, j ≤ i → i < k → isAsyncStop (tr i).job.status = false) →
    (tr k).job.status = .IN_QUEUE → 15000 < (tr k).elapsedCold →
    k ∈ (asyncLoop maxWait tr fuel j).2.2 := by
  intro fuel
  induction fuel with
  | zero => intro j k hjk hk; omega
  | succ fuel ih =>
      intro j k hjk hk hcheck hnt hq hcold
      simp only [asyncLoop]
      rw [if_pos (hcheck j le_rfl hjk)]
      rcases Nat.lt_or_ge j k with hlt | hge
      · have hj := hnt j le_rfl hlt
        simp only [isAsyncStop, Bool.or_eq_false_iff, decide_eq_false_iff_not] at hj
        rw [if_neg hj.1, if_neg hj.2]
        exact List.mem_append_right _
          (ih (j + 1) k hlt (by omega)
            (fun i h1 h2 => hcheck i (by omega) h2)
            (fun i h1 h2 => hnt i (by omega) h2) hq hcold)
      · have hjk' : j = k := Nat.le_antisymm hjk hge
        subst hjk'
        rw [hq]
        simp [hcold]

theorem asyncLoop_cold_independent (maxWait : Nat) (tr tr' : Nat → PollStep)
    (hsame : ∀ i, (tr i).elapsedCheck = (tr' i).elapsedCheck ∧ (tr i).job = (tr' i).job) :
    ∀ fuel j,
    (asyncLoop maxWait tr fuel j).1 = (asyncLoop maxWait tr' fuel j).1 ∧
    (asyncLoop maxWait tr fuel j).2.1 = (asyncLoop maxWait tr' fuel j).2.1 := by
  intro fuel
  induction fuel with
  | zero => intro j; exact ⟨rfl, rfl⟩
  | succ fuel ih =>
      intro j
      simp only [asyncLoop]
      rw [(hsame j).1, (hsame j).2]
      by_cases h1 : (tr' j).elapsedCheck < maxWait
      · rw [if_pos h1, if_pos h1]
        by_cases h2 : (tr' j).job.status = .COMPLETED
        · rw [if_pos h2, if_pos h2]; exact ⟨rfl, rfl⟩
        · rw [if_neg h2, if_neg h2]
          by_cases h3 : (tr' j).job.status = .FAILED
          · rw [if_pos h3, if_pos h3]; exact ⟨rfl, rfl⟩
          · rw [if_neg h3, if_neg h3]
            exact ih (j + 1)
      · rw [if_neg h1, if_neg h1]; exact ⟨rfl, rfl⟩

/-! ### Store lemmas -/

theorem lookupA_filter_iff {α : Type} (pr : String × α → Bool) (k : String)
    (r : α) :
    ∀ s : List (String × α), (s.map Prod.fst).Nodup →
    (lookupA (s.filter pr) k = some r ↔
      lookupA s k = some r ∧ pr (k, r) = true) := by
  intro s
  induction s with
  | nil => intro _; simp [lookupA]
  | cons q rest ih =>
      intro hnd
      rw [List.map_cons, List.nodup_cons] at hnd
      by_cases hq : q.1 = k
      · by_cases hpr : pr q
        · rw [List.filter_cons_of_pos hpr]
          simp only [lookupA, hq, if_pos]
          constructor
          · rintro h
            refine ⟨h, ?_⟩
            have : q = (k, r) := by
              rcases q with ⟨a, b⟩
              cases h
              simp only at hq
              rw [hq]
            rw [← this]
            exact hpr
          · rintro ⟨h, _⟩; exact h
        · rw [List.filter_cons_of_neg hpr]
          have hnone : lookupA rest k = none := by
            apply lookupA_eq_none_of_not_mem
            rw [← hq]
            exact hnd.1
          rw [lookupA_filter_none rest pr k hnone]
          simp only [lookupA, hq, if_pos]
          constructor
          · rintro h; cases h
          · rintro ⟨h, hpk⟩
            have : q = (k, r) := by
              rcases q with ⟨a, b⟩
              cases h
              simp only at hq
              rw [hq]
            rw [this] at hpr
            exact absurd hpk (by simpa using hpr)
      · have step : lookupA (List.filter pr (q :: rest)) k =
            lookupA (List.filter pr rest) k := by
          by_cases hpr : pr q
          · rw [List.filter_cons_of_pos hpr]
            simp [lookupA, hq]
          · rw [List.filter_cons_of_neg hpr]
        rw [step]
        simp only [lookupA, hq, if_neg, if_false]
        exact ih hnd.2

theorem storeGet_sweep_iff (s : Store) (now : Nat) (id : String)
    (r : JobRecord) (hnd : (s.map Prod.fst).Nodup) :
    storeGet (sweep s now) id = some r ↔
      storeGet s id = some r ∧ ¬(r.startedAt < now - retentionMs) := by
  unfold sweep storeGet
  rw [lookupA_filter_iff _ id r s hnd]
  simp

theorem storeGet_storeSet_self (s : Store) (id : String) (r : JobRecord) :
    storeGet (storeSet s id r) id = some r :=
  lookupA_setA_self s id r

theorem storeGet_storeSet_ne (s : Store) (id id' : String) (r : JobRecord)
    (h : id' ≠ id) : storeGet (storeSet s id r) id' = storeGet s id' :=
  lookupA_setA_ne s id id' r h

theorem storeSet_preserves (s : Store) (id id' : String) (r : JobRecord)
    (h : (storeGet s id').isSome = true) :
    (storeGet (storeSet s id r) id').isSome = true := by
  by_cases hid : id' = id
  · subst hid
    rw [storeGet_storeSet_self]
    rfl
  · rw [storeGet_storeSet_ne s id id' r hid]
    exact h

theorem applyWrites_append (s : Store) (id : String) (l1 l2 : List JobRecord) :
    applyWrites s id (l1 ++ l2) = applyWrites (applyWrites s id l1) id l2 :=
  List.foldl_append _ _ _ _

theorem storeGet_applyWrites_last (s : Store) (id : String)
    (ws : List JobRecord) (r : JobRecord) :
    storeGet (applyWrites s id (ws ++ [r])) id = some r := by
  rw [applyWrites_append]
  exact storeGet_storeSet_self _ id r

theorem storeGet_applyWrites_take (s : Store) (id : String)
    (ws : List JobRecord) (k : Nat) (r : JobRecord) (h : ws[k]? = some r) :
    storeGet (applyWrites s id (ws.take (k + 1))) id = some r := by
  rw [List.take_succ, h]
  exact storeGet_applyWrites_last s id _ r

/-! ### Error-message distinctness -/

theorem asyncTimeoutMsg_ne_jobFailedMsg (m : String) :
    ("RunPod execution failed: " ++ "Job timed out waiting for completion" : String) ≠
      "RunPod execution failed: " ++ ("Job failed: " ++ m) := by
  intro h
  have h2 := congrArg String.data h
  rw [String.data_append, String.data_append, String.data_append] at h2
  have h3 := congrArg (fun l => l[29]?) h2
  simp only at h3
  rw [List.getElem?_append_right (by decide),
    List.getElem?_append_right (by decide),
    List.getElem?_append_left (by decide)] at h3
  exact absurd h3 (by decide)

/-! ### Extraction-shape lemmas -/

theorem bindE_ok {α β : Type} (a : α) (f : α → Except String β) :
    (Except.ok a >>= f) = f a := rfl

theorem bindE_error {α β : Type} (e : String) (f : α → Except String β) :
    ((Except.error e : Except String α) >>= f) = Except.error e := rfl

theorem flatList_strings (l : List String) :
    flatList (l.map .vStr) = .ok (l.map .vStr) := by
  induction l with
  | nil => rfl
  | cons s rest ih => simp [flatList, flatImgStep, ih, bindE_ok]

theorem flatList_dataObjs (l : List String) (h : ∀ s ∈ l, s ≠ "") :
    flatList (l.map fun s => .vObj [("data", .vStr s)]) = .ok (l.map .vStr) := by
  induction l with
  | nil => rfl
  | cons s rest ih =>
      have hs : s ≠ "" := h s (List.mem_cons_self _ _)
      have ht := ih fun x hx => h x (List.mem_cons_of_mem _ hx)
      simp [flatList, flatImgStep, getFieldE, lookupA, truthy, hs, ht, bindE_ok]

theorem nodeImgList_strings (l : List String) :
    nodeImgList (l.map .vStr) = .ok (l.map .vStr) := by
  induction l with
  | nil => rfl
  | cons s rest ih => simp [nodeImgList, nodeImgStep, ih, bindE_ok]

theorem nodeImgList_dataObjs (l : List String) (h : ∀ s ∈ l, s ≠ "") :
    nodeImgList (l.map fun s => .vObj [("data", .vStr s)]) = .ok (l.map .vStr) := by
  induction l with
  | nil => rfl
  | cons s rest ih =>
      have hs : s ≠ "" := h s (List.mem_cons_self _ _)
      have ht := ih fun x hx => h x (List.mem_cons_of_mem _ hx)
      simp [nodeImgList, nodeImgStep, getFieldE, lookupA, truthy, hs, ht,
        bindE_ok]

theorem nodeList_single (nid : String) (nv : JVal) :
    nodeList [(nid, nv)] = nodeStep nv := by
  cases hv : nodeStep nv <;> simp [nodeList, hv, bindE_ok, bindE_error]

theorem nodeStep_imagesArr (imgs : List JVal) :
    nodeStep (.vObj [("images", .vArr imgs)]) = nodeImgList imgs := by
  simp [nodeStep, getFieldE, lookupA, bindE_ok]

theorem extractImages_flat (imgs : List JVal) :
    extractImages (some (.vObj [("images", .vArr imgs)])) = flatList imgs := by
  simp [extractImages, lookupA, truthy]

theorem extractImages_singleImage (v : JVal) (hv : truthy v = true) :
    extractImages (some (.vObj [("image", v)])) = .ok [v] := by
  have ht : truthy (JVal.vObj [("image", v)]) = true := rfl
  simp [extractImages, lookupA, ht, hv]

theorem extractImages_perNode (nid : String) (hn : nid ≠ "image")
    (imgs : List JVal) :
    extractImages (some (.vObj [(nid, .vObj [("images", .vArr imgs)])])) =
      nodeImgList imgs := by
  by_cases h : nid = "images"
  · subst h
    simp [extractImages, lookupA, truthy, nodeList_single, nodeStep_imagesArr]
  · simp [extractImages, lookupA, truthy, h, hn, nodeList_single,
      nodeStep_imagesArr]

/-! ### Workflow lemmas -/

theorem buildWorkflow_keys (w : Workflow) (p : String) (r : ℕ) :
    (buildWorkflow w p r).map Prod.fst = w.map Prod.fst := by
  unfold buildWorkflow
  simp only [map_fst_updA]

theorem buildWorkflow_untargeted (w : Workflow) (p : String) (r : ℕ)
    (id : String) (h : id ∉ targetIds) :
    lookupA (buildWorkflow w p r) id = lookupA w id := by
  simp only [targetIds, List.mem_cons, not_or, List.not_mem_nil,
    not_false_iff, and_true] at h
  obtain ⟨h1, h2, h3, h4, h5, h6, h7, h8⟩ := h
  unfold buildWorkflow
  rw [lookupA_updA_ne _ _ _ _ h8, lookupA_updA_ne _ _ _ _ h7,
    lookupA_updA_ne _ _ _ _ h6, lookupA_updA_ne _ _ _ _ h5,
    lookupA_updA_ne _ _ _ _ h4, lookupA_updA_ne _ _ _ _ h3,
    lookupA_updA_ne _ _ _ _ h2, lookupA_updA_ne _ _ _ _ h1]

theorem buildWorkflow_absent (w : Workflow) (p : String) (r : ℕ)
    (h : ∀ t ∈ targetIds, lookupA w t = none) :
    buildWorkflow w p r = w := by
  unfold buildWorkflow
  rw [updA_eq_self w "111" _ (h _ (by simp [targetIds]))]
  rw [updA_eq_self w "110" _ (h _ (by simp [targetIds]))]
  rw [updA_eq_self w "37" _ (h _ (by simp [targetIds]))]
  rw [updA_eq_self w "38" _ (h _ (by simp [targetIds]))]
  rw [updA_eq_self w "39" _ (h _ (by simp [targetIds]))]
  rw [updA_eq_self w "66" _ (h _ (by simp [targetIds]))]
  rw [updA_eq_self w "75" _ (h _ (by simp [targetIds]))]
  rw [updA_eq_self w "3" _ (h _ (by simp [targetIds]))]

theorem buildWorkflow_none (w : Workflow) (p : String) (r : ℕ) (id : String)
    (h : lookupA w id = none) :
    lookupA (buildWorkflow w p r) id = none := by
  unfold buildWorkflow
  exact lookupA_updA_none _ _ _ _ (lookupA_updA_none _ _ _ _
    (lookupA_updA_none _ _ _ _ (lookupA_updA_none _ _ _ _
      (lookupA_updA_none _ _ _ _ (lookupA_updA_none _ _ _ _
        (lookupA_updA_none _ _ _ _ (lookupA_updA_none _ _ _ _ h)))))))

theorem seedOf_buildWorkflow (w : Workflow) (p : String) (r : ℕ) (n : Node)
    (fs : List (String × FVal)) (h3 : lookupA w "3" = some n)
    (hf : n.inputs = some fs) :
    seedOf (buildWorkflow w p r) = some (.i (randomSeed r)) := by
  unfold buildWorkflow seedOf
  rw [lookupA_updA_self]
  rw [lookupA_updA_ne _ _ _ _ (show ("3" : String) ≠ "75" by decide),
    lookupA_updA_ne _ _ _ _ (show ("3" : String) ≠ "66" by decide),
    lookupA_updA_ne _ _ _ _ (show ("3" : String) ≠ "39" by decide),
    lookupA_updA_ne _ _ _ _ (show ("3" : String) ≠ "38" by decide),
    lookupA_updA_ne _ _ _ _ (show ("3" : String) ≠ "37" by decide),
    lookupA_updA_ne _ _ _ _ (show ("3" : String) ≠ "110" by decide),
    lookupA_updA_ne _ _ _ _ (show ("3" : String) ≠ "111" by decide)]
  rw [h3]
  simp [patchSeedNode, hf, lookupA_setA_self]

theorem randomSeed_nonneg (k : ℕ) : 0 ≤ randomSeed k :=
  Int.natCast_nonneg _

theorem randomSeed_lt (k : ℕ) (h : k < 2 ^ 53) : randomSeed k < 10 ^ 15 := by
  unfold randomSeed
  have hlt : k * 10 ^ 15 / 2 ^ 53 < 10 ^ 15 := by
    rw [Nat.div_lt_iff_lt_mul (by positivity), Nat.mul_comm (10 ^ 15) (2 ^ 53)]
    exact mul_lt_mul_of_pos_right h (by positivity)
  exact_mod_cast hlt

theorem patchPromptNode_idem (txt : String) (n : Node) :
    patchPromptNode txt (patchPromptNode txt n) = patchPromptNode txt n := by
  rcases n with ⟨ct, inputs⟩
  cases inputs with
  | none => rfl
  | some fs =>
      simp only [patchPromptNode]
      have hG1 : setA (setA (setA fs "text" (.s txt)) "prompt" (.s txt))
          "text" (.s txt) = setA (setA fs "text" (.s txt)) "prompt" (.s txt) := by
        apply setA_eq_self
        · exact hasA_setA_of _ _ _ _ (hasA_setA_self fs "text" (.s txt))
        · intro q hq hk
          have hq' : q ∈ setA fs "text" (.s txt) :=
            mem_setA_of_ne _ _ _ q hq (by rw [hk]; decide)
          exact mem_setA_self _ _ _ q hq' hk
      have hG2 : setA (setA (setA fs "text" (.s txt)) "prompt" (.s txt))
          "prompt" (.s txt) = setA (setA fs "text" (.s txt)) "prompt" (.s txt) := by
        apply setA_eq_self
        · exact hasA_setA_self _ _ _
        · intro q hq hk
          exact mem_setA_self _ _ _ q hq hk
      rw [hG1, hG2]

theorem lookupA_buildWorkflow_110 (w : Workflow) (p : String) (r : ℕ) :
    lookupA (buildWorkflow w p r) "110" =
      (lookupA w "110").map (patchPromptNode "") := by
  unfold buildWorkflow
  rw [lookupA_updA_ne _ _ _ _ (show ("110" : String) ≠ "3" by decide),
    lookupA_updA_ne _ _ _ _ (show ("110" : String) ≠ "75" by decide),
    lookupA_updA_ne _ _ _ _ (show ("110" : String) ≠ "66" by decide),
    lookupA_updA_ne _ _ _ _ (show ("110" : String) ≠ "39" by decide),
    lookupA_updA_ne _ _ _ _ (show ("110" : String) ≠ "38" by decide),
    lookupA_updA_ne _ _ _ _ (show ("110" : String) ≠ "37" by decide),
    lookupA_updA_self,
    lookupA_updA_ne _ _ _ _ (show ("110" : String) ≠ "111" by decide)]

theorem lookupA_buildWorkflow_111 (w : Workflow) (p : String) (r : ℕ) :
    lookupA (buildWorkflow w p r) "111" =
      (lookupA w "111").map (patchPromptNode p) := by
  unfold buildWorkflow
  rw [lookupA_updA_ne _ _ _ _ (show ("111" : String) ≠ "3" by decide),
    lookupA_updA_ne _ _ _ _ (show ("111" : String) ≠ "75" by decide),
    lookupA_updA_ne _ _ _ _ (show ("111" : String) ≠ "66" by decide),
    lookupA_updA_ne _ _ _ _ (show ("111" : String) ≠ "39" by decide),
    lookupA_updA_ne _ _ _ _ (show ("111" : String) ≠ "38" by decide),
    lookupA_updA_ne _ _ _ _ (show ("111" : String) ≠ "37" by decide),
    lookupA_updA_ne _ _ _ _ (show ("111" : String) ≠ "110" by decide),
    lookupA_updA_self]

theorem patchPromptNode_fields (txt : String) (n : Node)
    (fs : List (String × FVal)) (hf : n.inputs = some fs) :
    ∃ fs', (patchPromptNode txt n).inputs = some fs' ∧
      lookupA fs' "text" = some (.s txt) ∧
      lookupA fs' "prompt" = some (.s txt) := by
  refine ⟨setA (setA fs "text" (.s txt)) "prompt" (.s txt), ?_, ?_, ?_⟩
  · simp [patchPromptNode, hf]
  · rw [lookupA_setA_ne _ _ _ _ (show ("text" : String) ≠ "prompt" by decide)]
    exact lookupA_setA_self _ _ _
  · exact lookupA_setA_self _ _ _

/-! ### Claims -/

/-- Claim C1, counterexample: in `executeAsync`, observing the terminal
remote status `CANCELLED` at the first poll does not stop the poller — a
second status poll is issued and the run finishes from the later
`COMPLETED` response instead of failing with a `CANCELLED` error.  This
refutes the claim that both poll loops stop at every terminal status. -/
theorem C1_counterexample :
    isTerminal (cancelTrace 0).job.status = true ∧
    (asyncLoop asyncMaxWaitMs cancelTrace 5 0).2.1 = 2 ∧
    (asyncLoop asyncMaxWaitMs cancelTrace 5 0).1 = .ok (cancelTrace 1).job :=
  ⟨rfl, rfl, rfl⟩

/-- Claim C1 (amended): in `waitForCompletion`, once a terminal status
(`COMPLETED`, `FAILED`, `CANCELLED`, `TIMED_OUT`) is observed no further
poll is issued, and on the three failure statuses it throws immediately
with an error carrying that status and the remote error message.  In
`executeAsync` the same holds only for `COMPLETED` and `FAILED` (on
`FAILED` it throws with the remote error message); `CANCELLED` and
`TIMED_OUT` do not stop that loop. -/
theorem C1_theorem (maxWait fuel k : Nat) (tr : Nat → WaitStep)
    (tra : Nat → PollStep) (hfuel : k < fuel)
    (hchecksW : ∀ i, i ≤ k → (tr i).elapsedCheck < maxWait)
    (hpreW : ∀ i, i < k → isTerminal (tr i).job.status = false)
    (htermW : isTerminal (tr k).job.status = true)
    (hchecksA : ∀ i, i ≤ k → (tra i).elapsedCheck < maxWait)
    (hpreA : ∀ i, i < k → isAsyncStop (tra i).job.status = false)
    (htermA : isAsyncStop (tra k).job.status = true) :
    (waitLoop maxWait tr fuel 0).2.1 = k + 1 ∧
    ((tr k).job.status ≠ .COMPLETED →
      (waitLoop maxWait tr fuel 0).1 =
        .remoteFailed (tr k).job.status (jsOr (tr k).job.error)) ∧
    (asyncLoop maxWait tra fuel 0).2.1 = k + 1 ∧
    ((tra k).job.status = .FAILED →
      (asyncLoop maxWait tra fuel 0).1 = .jobFailed (jsOr (tra k).job.error)) ∧
    ((tr k).job.status ≠ .COMPLETED →
      waitForCompletionModel tr maxWait fuel =
        .error ("Job " ++ statusLower ((tr k).job.status) ++ ": " ++
          jsOr ((tr k).job.error))) := by
  have hW := waitLoop_stop maxWait tr fuel 0 k (Nat.zero_le k) (by omega)
    (fun i _ h2 => hchecksW i h2) (fun i _ h2 => hpreW i h2) htermW
  have hA := asyncLoop_stop maxWait tra fuel 0 k (Nat.zero_le k) (by omega)
    (fun i _ h2 => hchecksA i h2) (fun i _ h2 => hpreA i h2) htermA
  refine ⟨?_, ?_, hA.2, ?_, ?_⟩
  · rw [hW]
  · intro hne
    rw [hW]
    simp only [if_neg hne]
  · intro hf
    rw [hA.1, hf]
    simp
  · intro hne
    unfold waitForCompletionModel
    rw [hW]
    simp only [if_neg hne]

/-- Claim C1, witness: both loops applied to a concrete trace that is
terminal at the very first poll. -/
theorem C1_witness :
    (waitLoop 300000 waitTraceC 3 0).2.1 = 0 + 1 ∧
    (waitLoop 300000 waitTraceC 3 0).1 =
      .remoteFailed (waitTraceC 0).job.status (jsOr ((waitTraceC 0).job.error)) ∧
    (asyncLoop 300000 asyncTraceF 3 0).2.1 = 0 + 1 ∧
    (asyncLoop 300000 asyncTraceF 3 0).1 =
      .jobFailed (jsOr ((asyncTraceF 0).job.error)) ∧
    waitForCompletionModel waitTraceC 300000 3 =
      .error ("Job " ++ statusLower ((waitTraceC 0).job.status) ++ ": " ++
        jsOr ((waitTraceC 0).job.error)) := by
  have h := C1_theorem 300000 3 0 waitTraceC asyncTraceF (by decide)
    (fun i _ => show (1000 : Nat) < 300000 by decide)
    (fun i hi => absurd hi (Nat.not_lt_zero i)) (by decide)
    (fun i _ => show (1000 : Nat) < 300000 by decide)
    (fun i hi => absurd hi (Nat.not_lt_zero i)) (by decide)
  exact ⟨h.1, h.2.1 (by decide), h.2.2.1, h.2.2.2.1 (by decide),
    h.2.2.2.2 (by decide)⟩

/-- Claim C2, counterexample: an object carrying only an `{image}` field is
dropped by the flat `output.images` branch (zero images extracted) but
accepted by the per-node branch (one image extracted), so the three shapes
neither all tolerate `{image}`/`{base64}` objects nor always agree on the
logical image count. -/
theorem C2_counterexample :
    extractImages
      (some (.vObj [("images", .vArr [.vObj [("image", .vStr "x")]])])) =
      .ok [] ∧
    extractImages
      (some (.vObj
        [("9", .vObj [("images", .vArr [.vObj [("image", .vStr "x")]])])])) =
      .ok [.vStr "x"] :=
  ⟨rfl, rfl⟩

/-- Claim C2 (amended): the normalizer tries the three shapes in order and
extracts from the first that matches, concatenating within that shape in
discovery order.  The flat `images` array accepts raw strings and objects
with a truthy `{data}` field; the single `image` field pushes its value;
the per-node mapping accepts raw strings and `{data}`, `{image}`, or
`{base64}` objects.  For logical images that are non-empty strings given
either as raw strings or as `{data}` objects, the flat shape and the
per-node shape extract the same image list (hence the same count, in the
same order). -/
theorem C2_theorem (l : List String) (h : ∀ s ∈ l, s ≠ "") (nid : String)
    (hn : nid ≠ "image") (v : JVal) (hv : truthy v = true) :
    extractImages (some (.vObj [("images", .vArr (l.map .vStr))])) =
      .ok (l.map .vStr) ∧
    extractImages (some (.vObj
        [("images", .vArr (l.map fun s => .vObj [("data", .vStr s)]))])) =
      .ok (l.map .vStr) ∧
    extractImages (some (.vObj
        [(nid, .vObj [("images", .vArr (l.map .vStr))])])) =
      .ok (l.map .vStr) ∧
    extractImages (some (.vObj
        [(nid, .vObj [("images", .vArr (l.map fun s => .vObj [("data", .vStr s)]))])])) =
      .ok (l.map .vStr) ∧
    extractImages (some (.vObj [("image", v)])) = .ok [v] := by
  refine ⟨?_, ?_, ?_, ?_, extractImages_singleImage v hv⟩
  · rw [extractImages_flat]
    exact flatList_strings l
  · rw [extractImages_flat]
    exact flatList_dataObjs l h
  · rw [extractImages_perNode nid hn]
    exact nodeImgList_strings l
  · rw [extractImages_perNode nid hn]
    exact nodeImgList_dataObjs l h

/-- Claim C2, witness: a two-image payload extracted identically from the
flat-strings shape and from the per-node `{data}`-objects shape. -/
theorem C2_witness :
    extractImages
      (some (.vObj [("images", .vArr [.vStr "aGVsbG8=", .vStr "Zm9v"])])) =
      .ok [.vStr "aGVsbG8=", .vStr "Zm9v"] ∧
    extractImages
      (some (.vObj [("9", .vObj [("images", .vArr
        [.vObj [("data", .vStr "aGVsbG8=")], .vObj [("data", .vStr "Zm9v")]])])])) =
      .ok [.vStr "aGVsbG8=", .vStr "Zm9v"] := by
  have h := C2_theorem ["aGVsbG8=", "Zm9v"] (by decide) "9" (by decide)
    (.vStr "img") (by decide)
  exact ⟨h.1, h.2.2.2.1⟩

/-- Claim C3, counterexample: a job submitted at time 0 whose terminal
write happens at 30 minutes survives a sweep at 65 minutes, although
65 minutes exceed the 1-hour retention window measured from submission —
every transition write resets `startedAt`, so retention is not measured
from submission-time creation. -/
theorem C3_counterexample :
    retentionMs < 3900000 - 0 ∧
    (storeGet (sweep (applyWrites [] "job-1"
      (handlerWrites 0 0 1800000 (.error "x"))) 3900000) "job-1").isSome = true :=
  ⟨by decide, rfl⟩

/-- Claim C3 (amended): every record is created at submission with
`startedAt` equal to the submission time, but each subsequent transition
write stamps `startedAt` with its own time; the 10-minute periodic sweep
removes a record exactly when `now - startedAt` of the current record
exceeds the 1-hour retention window; and `jobStore.set` never removes an
entry, so the sweep is the only deletion path. -/
theorem C3_theorem (tS tP tE : Nat) (o : Except String GenerateResult)
    (s : Store) (now : Nat) (id id' : String) (r rec : JobRecord)
    (hnd : (s.map Prod.fst).Nodup) :
    (handlerWrites tS tP tE o)[0]? =
      some (⟨.pending, none, none, tS⟩ : JobRecord) ∧
    (handlerWrites tS tP tE o).map JobRecord.startedAt = [tS, tP, tE] ∧
    (storeGet (sweep s now) id = some r ↔
      storeGet s id = some r ∧ ¬(r.startedAt < now - retentionMs)) ∧
    ((storeGet s id').isSome = true →
      (storeGet (storeSet s id rec) id').isSome = true) ∧
    sweepIntervalMs = 10 * 60 * 1000 ∧ retentionMs = 60 * 60 * 1000 :=
  ⟨rfl, by cases o <;> rfl, storeGet_sweep_iff s now id r hnd,
    storeSet_preserves s id id' rec, rfl, rfl⟩

/-- Claim C3, witness: the sweep characterization applied to a concrete
single-entry store. -/
theorem C3_witness :
    storeGet (sweep [("j", (⟨.pending, none, none, 5⟩ : JobRecord))] 4000000)
        "j" = some (⟨.pending, none, none, 5⟩ : JobRecord) ↔
    (storeGet [("j", (⟨.pending, none, none, 5⟩ : JobRecord))] "j" =
        some (⟨.pending, none, none, 5⟩ : JobRecord) ∧
      ¬((5 : Nat) < 4000000 - retentionMs)) :=
  (C3_theorem 0 1 2 (.error "m") _ 4000000 "j" "k" _
    (⟨.pending, none, none, 5⟩ : JobRecord) (by decide)).2.2.1

/-- Claim C4 (confirmed): the `/api/generate` handler writes a `PENDING`
record synchronously (a lookup after only the first write yields it), its
write sequence moves the status exactly along
`pending -> processing -> (completed | failed)` with no other transition,
after each prefix of writes a lookup returns exactly the last record
written, and a record carries a result exactly when its status is
`completed` (no partial-result state). -/
theorem C4_theorem (s : Store) (id : String) (tS tP tE : Nat)
    (o : Except String GenerateResult) :
    storeGet (applyWrites s id ((handlerWrites tS tP tE o).take 1)) id =
      some (⟨.pending, none, none, tS⟩ : JobRecord) ∧
    (handlerWrites tS tP tE o).map JobRecord.status =
      [.pending, .processing,
        match o with | .ok _ => .completed | .error _ => .failed] ∧
    (∀ i r₁ r₂, (handlerWrites tS tP tE o)[i]? = some r₁ →
      (handlerWrites tS tP tE o)[i + 1]? = some r₂ →
      allowedStep r₁.status r₂.status) ∧
    (∀ r ∈ handlerWrites tS tP tE o, (r.result.isSome = true ↔ r.status = .completed)) ∧
    (∀ k r, (handlerWrites tS tP tE o)[k]? = some r →
      storeGet (applyWrites s id ((handlerWrites tS tP tE o).take (k + 1))) id =
        some r) := by
  refine ⟨storeGet_storeSet_self s id _, by cases o <;> rfl, ?_, ?_, ?_⟩
  · intro i r₁ r₂ h1 h2
    match i with
    | 0 =>
        cases h1
        cases h2
        exact Or.inl ⟨rfl, rfl⟩
    | 1 =>
        cases h1
        cases o with
        | ok a => cases h2; exact Or.inr ⟨rfl, Or.inl rfl⟩
        | error m => cases h2; exact Or.inr ⟨rfl, Or.inr rfl⟩
    | n + 2 =>
        cases o with
        | ok a => exact Option.noConfusion h2
        | error m => exact Option.noConfusion h2
  · intro r hr
    simp only [handlerWrites, List.mem_cons, List.not_mem_nil, or_false] at hr
    rcases hr with rfl | rfl | rfl
    · simp
    · simp
    · cases o with
      | ok a => simp [mkStored]
      | error m => simp
  · intro k r h
    exact storeGet_applyWrites_take s id _ k r h

/-- Claim C4, witness: the failing outcome applied to the empty store —
after all three writes the lookup yields the terminal `failed` record. -/
theorem C4_witness :
    storeGet (applyWrites [] "job-1"
        ((handlerWrites 10 20 30 (.error "boom")).take 3)) "job-1" =
      some (⟨.failed, none, some "boom", 30⟩ : JobRecord) :=
  (C4_theorem [] "job-1" 10 20 30 (.error "boom")).2.2.2.2 2 _ rfl

/-- Claim C5 (confirmed): when the `executeAsync` poll loop exhausts its
wall-clock budget without a terminal status, `executeAsync` fails with the
timeout error message, that message differs from every remote-failure
message `RunPod execution failed: Job failed: ...`, and the background task
marks the local record `FAILED` carrying the error message verbatim. -/
theorem C5_theorem (submitId : String) (tr : Nat → PollStep) (fuel : Nat)
    (n : Nat) (sig : List Nat) (m : String) (tS tP tE : Nat) (s : Store)
    (id : String)
    (hto : asyncLoop asyncMaxWaitMs tr fuel 0 = (.timeout, n, sig)) :
    executeAsyncModel (.ok submitId) tr fuel =
      .error ("RunPod execution failed: " ++ "Job timed out waiting for completion") ∧
    (∀ m', ("RunPod execution failed: " ++
        "Job timed out waiting for completion" : String) ≠
      "RunPod execution failed: " ++ ("Job failed: " ++ m')) ∧
    storeGet (applyWrites s id (handlerWrites tS tP tE (.error m))) id =
      some (⟨.failed, none, some m, tE⟩ : JobRecord) := by
  refine ⟨?_, asyncTimeoutMsg_ne_jobFailedMsg, storeGet_storeSet_self _ _ _⟩
  unfold executeAsyncModel
  rw [hto]

/-- Claim C5, witness: a trace past the budget at the first check makes
`executeAsync` fail with the timeout-specific message. -/
theorem C5_witness :
    executeAsyncModel (.ok "rp-1") timeoutTrace 3 =
      .error ("RunPod execution failed: " ++ "Job timed out waiting for completion") :=
  (C5_theorem ("rp-1") timeoutTrace 3 0 [] ("m") 0 0 0 [] ("job-1") rfl).1

/-- Claim C6 (confirmed): `buildWorkflow` preserves the node-identifier
sequence (hence the node count), leaves every node whose identifier is not
one of the eight targeted ones completely unchanged, never creates a node
that was absent (the patch for a missing targeted identifier is a silent
per-field no-op, not an error), and is the identity when none of the
targeted identifiers occur in the template. -/
theorem C6_theorem (w : Workflow) (p : String) (r : ℕ) :
    (buildWorkflow w p r).map Prod.fst = w.map Prod.fst ∧
    (buildWorkflow w p r).length = w.length ∧
    (∀ id, id ∉ targetIds →
      lookupA (buildWorkflow w p r) id = lookupA w id) ∧
    (∀ id, lookupA w id = none → lookupA (buildWorkflow w p r) id = none) ∧
    ((∀ t ∈ targetIds, lookupA w t = none) → buildWorkflow w p r = w) := by
  refine ⟨buildWorkflow_keys w p r, ?_,
    fun id h => buildWorkflow_untargeted w p r id h,
    fun id h => buildWorkflow_none w p r id h,
    fun h => buildWorkflow_absent w p r h⟩
  have h := congrArg List.length (buildWorkflow_keys w p r)
  simpa using h

/-- Claim C6, witness: the untargeted node `7` of a concrete template is
unchanged, and a template containing none of the targeted nodes is returned
as is. -/
theorem C6_witness :
    lookupA (buildWorkflow exWorkflow "a red cat" 7) "7" =
      lookupA exWorkflow "7" ∧
    lookupA (buildWorkflow exWorkflow "a red cat" 7) "66" = none ∧
    buildWorkflow ([] : Workflow) "a red cat" 7 = [] :=
  ⟨(C6_theorem exWorkflow "a red cat" 7).2.2.1 "7" (by decide),
   (C6_theorem exWorkflow "a red cat" 7).2.2.2.1 "66" rfl,
   (C6_theorem [] "a red cat" 7).2.2.2.2 (fun t _ => rfl)⟩

/-- Claim C7, counterexample: a `waitForCompletion` run that observes
`IN_QUEUE` at a poll 20 seconds after submission issues another poll but
emits no cold-start signal at all — only `executeAsync` contains the
cold-start check, so the claim fails for the `waitForCompletion` loop. -/
theorem C7_counterexample :
    (waitQueueTrace 0).job.status = .IN_QUEUE ∧
    15000 < (waitQueueTrace 0).elapsedCheck ∧
    (waitLoop 300000 waitQueueTrace 5 0).2.1 = 2 ∧
    (waitLoop 300000 waitQueueTrace 5 0).2.2 = [] :=
  ⟨rfl, by decide, rfl, rfl⟩

/-- Claim C7 (amended): only the `executeAsync` poll loop emits the
cold-start warning: whenever that loop reaches a poll whose status is
`IN_QUEUE` more than 15 seconds after submission, the signal for that poll
index is emitted; `waitForCompletion` emits no cold-start signal ever; and
emitting the signal changes no job state — the loop outcome and the number
of polls are unchanged under arbitrary changes of the cold-start clock
readings. -/
theorem C7_theorem (maxWait fuel k j : Nat) (tra tr tr' : Nat → PollStep)
    (trw : Nat → WaitStep) (hfuel : k < fuel)
    (hchecks : ∀ i, i ≤ k → (tra i).elapsedCheck < maxWait)
    (hpre : ∀ i, i < k → isAsyncStop (tra i).job.status = false)
    (hq : (tra k).job.status = .IN_QUEUE)
    (hcold : 15000 < (tra k).elapsedCold)
    (hsame : ∀ i, (tr i).elapsedCheck = (tr' i).elapsedCheck ∧
      (tr i).job = (tr' i).job) :
    k ∈ (asyncLoop maxWait tra fuel 0).2.2 ∧
    (waitLoop maxWait trw fuel j).2.2 = [] ∧
    (asyncLoop maxWait tr fuel j).1 = (asyncLoop maxWait tr' fuel j).1 ∧
    (asyncLoop maxWait tr fuel j).2.1 = (asyncLoop maxWait tr' fuel j).2.1 := by
  have hi := asyncLoop_cold_independent maxWait tr tr' hsame fuel j
  exact ⟨asyncLoop_cold maxWait tra fuel 0 k (Nat.zero_le k) (by omega)
      (fun i _ h2 => hchecks i h2) (fun i _ h2 => hpre i h2) hq hcold,
    waitLoop_signals maxWait trw fuel j, hi.1, hi.2⟩

/-- Claim C7, witness: a job queued past 15 seconds in `executeAsync` gets
the cold-start signal at poll 0, while the concrete `waitForCompletion`
run emits none. -/
theorem C7_witness :
    0 ∈ (asyncLoop asyncMaxWaitMs queueColdTrace 3 0).2.2 ∧
    (waitLoop 300000 waitQueueTrace 3 0).2.2 = [] := by
  have h := C7_theorem asyncMaxWaitMs 3 0 0 queueColdTrace queueColdTrace
    queueColdTrace waitQueueTrace (by decide)
    (fun i _ => show (1000 : Nat) < asyncMaxWaitMs by decide)
    (fun i hi => absurd hi (Nat.not_lt_zero i)) rfl (by decide)
    (fun i => ⟨rfl, rfl⟩)
  exact ⟨h.1, h.2.1⟩

/-- Claim C8 (confirmed): the seed injected into sampler node `3` by
`buildWorkflow` is an integer in `[0, 10 ^ 15)` (for any `Math.random`
draw `k / 2 ^ 53` with `k < 2 ^ 53`), it equals exactly the value derived
from this build's own draw, and two builds whose draws yield different
seed values store different seeds — the seed is freshly generated per
build, not pinned. -/
theorem C8_theorem (w : Workflow) (p : String) (k k' : ℕ) (n : Node)
    (fs : List (String × FVal)) (hk : k < 2 ^ 53)
    (h3 : lookupA w "3" = some n) (hf : n.inputs = some fs) :
    (0 ≤ randomSeed k ∧ randomSeed k < 10 ^ 15) ∧
    seedOf (buildWorkflow w p k) = some (.i (randomSeed k)) ∧
    (randomSeed k ≠ randomSeed k' →
      seedOf (buildWorkflow w p k) ≠ seedOf (buildWorkflow w p k')) := by
  refine ⟨⟨randomSeed_nonneg k, randomSeed_lt k hk⟩,
    seedOf_buildWorkflow w p k n fs h3 hf, ?_⟩
  intro hne heq
  rw [seedOf_buildWorkflow w p k n fs h3 hf,
    seedOf_buildWorkflow w p k' n fs h3 hf] at heq
  injection heq with h1
  injection h1 with h2
  exact hne h2

/-- Claim C8, witness: the concrete template with draw numerator `2 ^ 52`
(seed `5 * 10 ^ 14`) versus draw numerator `0` (seed `0`). -/
theorem C8_witness :
    (0 ≤ randomSeed (2 ^ 52) ∧ randomSeed (2 ^ 52) < 10 ^ 15) ∧
    seedOf (buildWorkflow exWorkflow "p" (2 ^ 52)) =
      some (.i (randomSeed (2 ^ 52))) ∧
    seedOf (buildWorkflow exWorkflow "p" (2 ^ 52)) ≠
      seedOf (buildWorkflow exWorkflow "p" 0) := by
  have h := C8_theorem exWorkflow "p" (2 ^ 52) 0 _ _ (by decide) rfl rfl
  exact ⟨h.1, h.2.1, h.2.2 (by decide)⟩

/-- Claim C9 (confirmed): the negative-prompt injection is idempotent —
applying it twice yields the same template as applying it once — and in
every built workflow the negative-prompt node `110` (when present with an
`inputs` object) carries `text` and `prompt` fields equal to the empty
string (present, not doubled), while the positive-prompt node `111`
carries both fields equal to the primary prompt. -/
theorem C9_theorem (w : Workflow) (p : String) (r : ℕ) :
    negPromptInject (negPromptInject w) = negPromptInject w ∧
    (∀ n fs, lookupA w "110" = some n → n.inputs = some fs →
      ∃ fs', (lookupA (buildWorkflow w p r) "110").bind Node.inputs = some fs' ∧
        lookupA fs' "text" = some (.s "") ∧
        lookupA fs' "prompt" = some (.s "")) ∧
    (∀ n fs, lookupA w "111" = some n → n.inputs = some fs →
      ∃ fs', (lookupA (buildWorkflow w p r) "111").bind Node.inputs = some fs' ∧
        lookupA fs' "text" = some (.s p) ∧
        lookupA fs' "prompt" = some (.s p)) := by
  refine ⟨updA_updA_self w "110" _ (patchPromptNode_idem ""), ?_, ?_⟩
  · intro n fs h110 hf
    rcases patchPromptNode_fields "" n fs hf with ⟨fs', hi, ht, hp⟩
    refine ⟨fs', ?_, ht, hp⟩
    rw [lookupA_buildWorkflow_110, h110]
    simp [hi]
  · intro n fs h111 hf
    rcases patchPromptNode_fields p n fs hf with ⟨fs', hi, ht, hp⟩
    refine ⟨fs', ?_, ht, hp⟩
    rw [lookupA_buildWorkflow_111, h111]
    simp [hi]

/-- Claim C9, witness: idempotence and the prompt fields on the concrete
template. -/
theorem C9_witness :
    negPromptInject (negPromptInject exWorkflow) = negPromptInject exWorkflow ∧
    (∃ fs', (lookupA (buildWorkflow exWorkflow "a red cat" 7) "110").bind
        Node.inputs = some fs' ∧
      lookupA fs' "text" = some (.s "") ∧
      lookupA fs' "prompt" = some (.s "")) ∧
    (∃ fs', (lookupA (buildWorkflow exWorkflow "a red cat" 7) "111").bind
        Node.inputs = some fs' ∧
      lookupA fs' "text" = some (.s "a red cat") ∧
      lookupA fs' "prompt" = some (.s "a red cat")) := by
  have h := C9_theorem exWorkflow "a red cat" 7
  exact ⟨h.1, h.2.1 _ _ rfl rfl, h.2.2 _ _ rfl rfl⟩

/-- Claim C10 (confirmed): `processOutput` returns `success = true` with
the fixed success message exactly when image extraction raises no
exception — including when the response has no `output` field (empty image
list) and when the output contains zero recognizable images — and it
returns `success = false` with an empty image list and the exception's
message exactly when extraction throws. -/
theorem C10_theorem (d : RemoteData) :
    ((processOutput d).success = true ↔ isOkE (extractImages d.output) = true) ∧
    ((processOutput d).success = true →
      (processOutput d).message = "Image generation completed successfully") ∧
    (∀ e, extractImages d.output = .error e →
      processOutput d =
        ⟨false, d.id, "Failed to process output: " ++ e, [], none⟩) ∧
    processOutput ⟨d.id, d.status, none⟩ =
      ⟨true, d.id, "Image generation completed successfully", [], d.status⟩ ∧
    (processOutput ⟨d.id, d.status, some (.vObj [])⟩).images = [] ∧
    (processOutput ⟨d.id, d.status, some (.vObj [])⟩).success = true ∧
    (processOutput ⟨d.id, d.status,
      some (.vObj [("images", .vArr [.vNull])])⟩).success = false := by
  refine ⟨?_, ?_, ?_, rfl, rfl, rfl, rfl⟩
  · unfold processOutput
    cases h : extractImages d.output <;> simp [h, isOkE]
  · unfold processOutput
    cases h : extractImages d.output <;> simp [h]
  · intro e he
    unfold processOutput
    rw [he]

/-- Claim C10, witness: a response without `output` succeeds with the
fixed message, and a response whose flat `images` array contains `null`
makes extraction throw, yielding the failure record with the exception
message. -/
theorem C10_witness :
    (processOutput ⟨some "id-1", some "COMPLETED", none⟩).message =
      "Image generation completed successfully" ∧
    processOutput ⟨some "id-1", some "COMPLETED",
        some (.vObj [("images", .vArr [.vNull])])⟩ =
      ⟨false, some "id-1",
        "Failed to process output: " ++
          "Cannot read properties of null (reading data)", [], none⟩ :=
  ⟨(C10_theorem ⟨some "id-1", some "COMPLETED", none⟩).2.1 rfl,
   (C10_theorem ⟨some "id-1", some "COMPLETED",
     some (.vObj [("images", .vArr [.vNull])])⟩).2.2.1 _ rfl⟩
